import Mathlib

/-!
Verification of `src/task-3/inventory_tool.py` (device inventory tool).

Shallow embedding conventions:
* A Python dict produced by `csv.DictReader` (or built literally) is an
  insertion-ordered mapping from string keys to string values; we embed it
  as an association list `Record := List (String × String)` whose keys are
  distinct, with `List.lookup` as dict lookup (first occurrence wins, which
  agrees with dict semantics when keys are distinct).
* The backing CSV file is embedded at the row/cell level as
  `List (List String)`: one entry per line, each a list of cell strings.
  The `csv` module's quoting layer round-trips cells faithfully, so the
  cell level is the faithful abstraction for this program.
* `csv.DictWriter` with the default `extrasaction="raise"` raises
  `ValueError` when a record has a key outside `fieldnames`; a key of
  `fieldnames` missing from the record does NOT raise: the default
  `restval=None` is substituted and written as an empty cell.  Rows are
  written one at a time, so rows before the first failing one are kept.
* Stateful code (file writes, printing, `sys.exit`) is embedded by explicit
  state passing: `main_run` maps the backing-file state and the parsed
  command line to a `MainResult` recording the exit code, the resulting
  file state, what inventory (if any) was printed, and whether an argparse
  usage error was emitted on standard error.
-/

set_option autoImplicit false

namespace InventoryTool

/-- A device record: an insertion-ordered string-to-string mapping
(a Python dict as produced by `csv.DictReader` or a dict literal). -/
abbrev Record := List (String × String)

/-- The Python exceptions this program can raise during data handling. -/
inductive PyError where
  | keyError : String → PyError
  | valueError : String → PyError
deriving Repr, DecidableEq

/-- The fixed column order of `save_inventory`
(line 108: `fieldnames = ["Name", "Management IP", "Username", "Password", "Description"]`). -/
def fieldnames : List String :=
  ["Name", "Management IP", "Username", "Password", "Description"]

/-- `read_inventory` (lines 20-35): `csv.DictReader` takes the first line as
the header and turns each further line into a dict pairing header names with
cells.  An empty file yields no records. -/
def read_inventory (file : List (List String)) : List Record :=
  match file with
  | [] => []
  | header :: rows => rows.map (fun row => header.zip row)

/-- `get_device_data` (lines 37-56): linear scan; `device["Name"]` raises
`KeyError` when the key is absent; returns the first record whose Name equals
the target, else `None`. -/
def get_device_data (inventory : List Record) (device_name : String) :
    Except PyError (Option Record) :=
  match inventory with
  | [] => .ok none
  | device :: rest =>
    match device.lookup "Name" with
    | none => .error (.keyError "Name")
    | some n =>
      if n = device_name then .ok (some device)
      else get_device_data rest device_name

/-- `add_device` (lines 90-98): `inventory.append(new_device)`.  The in-place
append is embedded as state passing: the result replaces the caller's list. -/
def add_device (inventory : List Record) (new_device : Record) : List Record :=
  inventory ++ [new_device]

/-- The cells `csv.DictWriter` emits for one record: the record's value for
each field name in `fieldnames` order, with the default `restval=None`
(written as an empty cell) substituted for a missing key. -/
def row_of (r : Record) : List String :=
  fieldnames.map (fun k => ((r.lookup k).getD ""))

/-- `csv.DictWriter._dict_to_list` with the default `extrasaction="raise"`:
a key outside `fieldnames` raises `ValueError`; otherwise the row is the
fieldname-ordered cells with empty cells for missing keys. -/
def dict_to_list (r : Record) : Except PyError (List String) :=
  if (r.map Prod.fst).all (fun k => fieldnames.contains k) then
    .ok (row_of r)
  else
    .error (.valueError "dict contains fields not in fieldnames")

/-- `writer.writerows(inventory)`: rows are converted and written one at a
time; on the first record that fails, the rows already written are kept and
the error propagates. -/
def writeRows : List Record → List (List String) × Option PyError
  | [] => ([], none)
  | r :: rest =>
    match dict_to_list r with
    | .error e => ([], some e)
    | .ok row =>
      let (rows, err) := writeRows rest
      (row :: rows, err)

/-- `save_inventory` (lines 100-112): opens the file in mode `"w"` (so the
result below is the file's entire new content, independent of its previous
content), writes the header, then the rows.  The second component is the
propagated exception, if any. -/
def save_inventory (inventory : List Record) :
    List (List String) × Option PyError :=
  let (rows, err) := writeRows inventory
  (fieldnames :: rows, err)

/-! ### CLI entry point (lines 114-168) -/

/-- The parsed command line shapes relevant to the entry point: no arguments,
or the `add` subcommand with each of its five flags either provided or
omitted. -/
inductive CliInput where
  | noArgs : CliInput
  | addCmd (name ip user password desc : Option String) : CliInput

/-- Observable outcome of one process run: exit code, resulting backing-file
state (`none` means the file does not exist / is unreadable), the inventory
printed to standard output by the no-command path (if any), the confirmation
message of a successful add (if any), and whether argparse printed a usage
error to standard error. -/
structure MainResult where
  exitCode : Nat
  file : Option (List (List String))
  printedInventory : Option (List Record)
  message : Option String
  usageError : Bool
deriving Repr, DecidableEq

/-- The `__main__` block (lines 135-168), as a function of the backing-file
state and the command line.  `read_inventory("inventory.csv")` runs first
(line 137); an unreadable file aborts with an unhandled `FileNotFoundError`
(exit code 1) before argument parsing.  argparse rejects an `add` invocation
missing a required flag with a usage error on standard error and exit code 2,
leaving the file untouched.  A successful add appends, rewrites the file and
prints the confirmation (quotes around the name elided); a `ValueError`
during the rewrite propagates (exit code 1) after the header and the earlier
rows were already written. -/
def main_run (file : Option (List (List String))) (input : CliInput) :
    MainResult :=
  match file with
  | none =>
    { exitCode := 1, file := none, printedInventory := none,
      message := none, usageError := false }
  | some f =>
    let inventory_data := read_inventory f
    match input with
    | .noArgs =>
      { exitCode := 0, file := some f,
        printedInventory := some inventory_data,
        message := none, usageError := false }
    | .addCmd name ip user password desc =>
      match name, ip, user, password, desc with
      | some n, some i, some u, some p, some d =>
        let new_device : Record :=
          [("Name", n), ("Management IP", i), ("Username", u),
           ("Password", p), ("Description", d)]
        let inv2 := add_device inventory_data new_device
        let saved := save_inventory inv2
        match saved.2 with
        | some _ =>
          { exitCode := 1, file := some saved.1, printedInventory := none,
            message := none, usageError := false }
        | none =>
          { exitCode := 0, file := some saved.1, printedInventory := none,
            message := some ("Device " ++ n ++ " added and saved!"),
            usageError := false }
      | _, _, _, _, _ =>
        { exitCode := 2, file := some f, printedInventory := none,
          message := none, usageError := true }

/-! ### Helper predicates and canonical forms -/

/-- A record has exactly the five persisted keys: every field name is
present, and every key is a field name. -/
def has_exact_fieldnames (r : Record) : Bool :=
  fieldnames.all (fun k => (r.lookup k).isSome)
    && (r.map Prod.fst).all (fun k => fieldnames.contains k)

/-- The canonical (fieldname-ordered) form of a record, as the Loader
recovers it after a save: one entry per field name, missing keys as empty
strings. -/
def canon (r : Record) : Record :=
  fieldnames.map (fun k => (k, (r.lookup k).getD ""))

/-! ### Helper lemmas -/

theorem dict_to_list_ok (r : Record)
    (h : (r.map Prod.fst).all (fun k => fieldnames.contains k) = true) :
    dict_to_list r = .ok (row_of r) := by
  simp only [dict_to_list, h, if_true]

theorem writeRows_ok (inv : List Record)
    (h : ∀ r ∈ inv, (r.map Prod.fst).all (fun k => fieldnames.contains k) = true) :
    writeRows inv = (inv.map row_of, none) := by
  induction inv with
  | nil => rfl
  | cons r rest ih =>
    have hr := h r (List.mem_cons_self r rest)
    have hrest := ih (fun x hx => h x (List.mem_cons_of_mem r hx))
    simp [writeRows, dict_to_list_ok r hr, hrest]

theorem zip_row_of (r : Record) : fieldnames.zip (row_of r) = canon r := rfl

theorem lookup_canon (r : Record) (k : String) (hk : k ∈ fieldnames) :
    (canon r).lookup k = some ((r.lookup k).getD "") := by
  simp only [fieldnames, List.mem_cons, List.not_mem_nil, or_false] at hk
  rcases hk with rfl | rfl | rfl | rfl | rfl <;> rfl

theorem canon_zip (row : List String) (h : row.length = 5) :
    canon (fieldnames.zip row) = fieldnames.zip row := by
  match row with
  | [a, b, c, d, e] => rfl

theorem keys_bool_of_keys_mem (r : Record)
    (h : ∀ k ∈ r.map Prod.fst, k ∈ fieldnames) :
    (r.map Prod.fst).all (fun k => fieldnames.contains k) = true := by
  rw [List.all_eq_true]
  intro k hk
  simpa using h k hk

/-! ### Claim theorems -/

/-- C4: `add_device` turns the caller's sequence into the original sequence
with the new record appended last: the length grows by one, the original
records are unchanged and in order (they are the result minus its last
element), and the last element is the new record.  No uniqueness check on
the Name field exists anywhere in `add_device` (its result type carries no
error), so this holds in particular when `new_device` duplicates an existing
Name. -/
theorem C4_add_device_appends (inventory : List Record) (new_device : Record) :
    (add_device inventory new_device).length = inventory.length + 1 ∧
    (add_device inventory new_device).dropLast = inventory ∧
    (add_device inventory new_device).getLast? = some new_device := by
  refine ⟨?_, ?_, ?_⟩
  · simp [add_device]
  · exact List.dropLast_concat
  · exact List.getLast?_concat inventory

/-- C10: on an empty record sequence, `save_inventory` writes exactly the
header row `Name,Management IP,Username,Password,Description` with no data
rows and raises nothing, and `read_inventory` of that file is the empty
sequence. -/
theorem C10_empty_inventory_roundtrip :
    save_inventory ([] : List Record) =
      ([["Name", "Management IP", "Username", "Password", "Description"]], none) ∧
    read_inventory [["Name", "Management IP", "Username", "Password", "Description"]] =
      ([] : List Record) :=
  ⟨rfl, rfl⟩

/-- A record missing the Password key (as in the spec's own test scenario). -/
def missing_password_record : Record :=
  [("Name", "Router1"), ("Management IP", "10.0.0.1"),
   ("Username", "admin"), ("Description", "Core router")]

/-- C1 counterexample: `save_inventory` on a record missing the Password key
does NOT fail — it raises nothing and silently writes a data row with an
empty cell in the Password column.  (`csv.DictWriter` only raises for keys
outside `fieldnames`; missing keys get the default `restval=None`, written
as an empty cell.) -/
theorem C1_counterexample :
    (save_inventory [missing_password_record]).2 = none ∧
    (save_inventory [missing_password_record]).1 =
      [["Name", "Management IP", "Username", "Password", "Description"],
       ["Router1", "10.0.0.1", "admin", "", "Core router"]] :=
  ⟨rfl, rfl⟩

/-- C1 amended: for every record sequence whose records have no key outside
the five field names (records may be missing keys), `save_inventory` raises
no error and writes, for each record in order, a row holding the record's
value for each field name in the fixed order, with an empty (not shifted)
cell exactly where a key is missing. -/
theorem C1_missing_keys_written_blank (inv : List Record)
    (h : ∀ r ∈ inv, ∀ k ∈ r.map Prod.fst, k ∈ fieldnames) :
    (save_inventory inv).2 = none ∧
    (save_inventory inv).1 =
      fieldnames ::
        inv.map (fun r => fieldnames.map (fun k => ((r.lookup k).getD ""))) := by
  have hall : ∀ r ∈ inv,
      (r.map Prod.fst).all (fun k => fieldnames.contains k) = true :=
    fun r hr => keys_bool_of_keys_mem r (h r hr)
  have hw := writeRows_ok inv hall
  constructor
  · simp [save_inventory, hw]
  · simp [save_inventory, hw, row_of]

/-- C1 amended witness: the Password-less record is written without error,
with a blank Password cell and all other values in their own columns. -/
theorem C1_missing_keys_written_blank_witness :
    (save_inventory [missing_password_record]).2 = none ∧
    (save_inventory [missing_password_record]).1 =
      fieldnames ::
        [missing_password_record].map
          (fun r => fieldnames.map (fun k => ((r.lookup k).getD ""))) :=
  C1_missing_keys_written_blank [missing_password_record] (by decide)

/-- C2: for every record sequence containing a record with a key outside the
five field names, `save_inventory` fails with a field-mapping error
(`ValueError` from `csv.DictWriter`). -/
theorem C2_extra_key_value_error (inv : List Record)
    (h : ∃ r ∈ inv, ∃ k ∈ r.map Prod.fst, k ∉ fieldnames) :
    ∃ msg, (save_inventory inv).2 = some (.valueError msg) := by
  obtain ⟨r, hr, k, hk, hknot⟩ := h
  refine ⟨"dict contains fields not in fieldnames", ?_⟩
  suffices hsuff : (writeRows inv).2 =
      some (.valueError "dict contains fields not in fieldnames") by
    simpa [save_inventory] using hsuff
  induction inv with
  | nil => cases hr
  | cons s rest ih =>
    by_cases hs : (s.map Prod.fst).all (fun k => fieldnames.contains k) = true
    · have hsr : r ∈ rest := by
        rcases List.mem_cons.mp hr with rfl | hmem
        · exfalso
          have := List.all_eq_true.mp hs k hk
          simp at this
          exact hknot this
        · exact hmem
      simp [writeRows, dict_to_list_ok s hs, ih hsr]
    · have : dict_to_list s =
          .error (.valueError "dict contains fields not in fieldnames") := by
        unfold dict_to_list
        rw [if_neg hs]
      simp [writeRows, this]

/-- A record carrying a key outside the five field names. -/
def extra_key_record : Record :=
  [("Name", "Router1"), ("Management IP", "10.0.0.1"), ("Username", "admin"),
   ("Password", "pass123"), ("Description", "Core router"), ("Vendor", "Acme")]

/-- C2 witness: a sequence containing a record with the extra key Vendor
makes `save_inventory` fail with a `ValueError`. -/
theorem C2_extra_key_value_error_witness :
    ∃ msg, (save_inventory [extra_key_record]).2 = some (.valueError msg) :=
  C2_extra_key_value_error [extra_key_record] (by decide)

/-- C5: for every record sequence whose records each have exactly the five
keys, `save_inventory` raises nothing and produces (as the file's entire new
content, its mode being `"w"`) the fixed header followed by exactly one row
per record in sequence order; each row lists the record's values in the
fixed fieldname order, so it depends only on the record's key-value mapping,
not on its key insertion order. -/
theorem C5_save_exact_records (inv : List Record)
    (h : ∀ r ∈ inv, has_exact_fieldnames r = true) :
    (save_inventory inv).2 = none ∧
    (save_inventory inv).1 = fieldnames :: inv.map row_of ∧
    ∀ r r' : Record, (∀ k, r.lookup k = r'.lookup k) → row_of r = row_of r' := by
  have hall : ∀ r ∈ inv,
      (r.map Prod.fst).all (fun k => fieldnames.contains k) = true := by
    intro r hr
    have h2 := h r hr
    simp only [has_exact_fieldnames, Bool.and_eq_true] at h2
    exact h2.2
  have hw := writeRows_ok inv hall
  refine ⟨?_, ?_, ?_⟩
  · simp [save_inventory, hw]
  · simp [save_inventory, hw]
  · intro r r' hrr
    simp [row_of, hrr]

/-- A well-formed five-key record, with keys deliberately NOT in the
persisted column order. -/
def scrambled_record : Record :=
  [("Description", "Access switch"), ("Password", "pass456"),
   ("Name", "Switch1"), ("Management IP", "10.0.0.2"), ("Username", "admin")]

/-- C5 witness: a sequence of one five-key record (keys in scrambled order)
is saved without error as the header plus its single fieldname-ordered row. -/
theorem C5_save_exact_records_witness :
    (save_inventory [scrambled_record]).2 = none ∧
    (save_inventory [scrambled_record]).1 =
      fieldnames :: [scrambled_record].map row_of ∧
    ∀ r r' : Record, (∀ k, r.lookup k = r'.lookup k) → row_of r = row_of r' :=
  C5_save_exact_records [scrambled_record] (by decide)

/-- C3: when every record carries a Name key, `get_device_data` raises
nothing and returns exactly the first record (in sequence order) whose Name
equals the target under exact, case-sensitive, untrimmed string equality —
`List.find?` semantics — and so returns `none` when no record matches, and
the earliest of several records sharing the target Name. -/
theorem C3_get_device_data_first_match (inv : List Record) (target : String)
    (h : ∀ r ∈ inv, (r.lookup "Name").isSome = true) :
    get_device_data inv target =
      .ok (inv.find? (fun r => r.lookup "Name" == some target)) := by
  induction inv with
  | nil => rfl
  | cons d rest ih =>
    obtain ⟨n, hn⟩ :=
      Option.isSome_iff_exists.mp (h d (List.mem_cons_self d rest))
    have hrest := ih (fun r hr => h r (List.mem_cons_of_mem d hr))
    by_cases he : n = target
    · subst he
      simp [get_device_data, hn, List.find?]
    · have hne : (d.lookup "Name" == some target) = false := by
        simp [hn, he]
      have hnt : (n == target) = false := by simp [he]
      simp [get_device_data, hn, he, List.find?, hne, hnt, hrest]

/-- Two records sharing the Name Router1; the second also differs in its
Description, to tell the two apart in the C3 witness. -/
def dup_name_inventory : List Record :=
  [[("Name", "Router1"), ("Description", "first")],
   [("Name", "Router1"), ("Description", "second")],
   [("Name", "Switch1"), ("Description", "third")]]

/-- C3 witness: on a concrete inventory with a duplicated Name, the finder
returns the earliest match, which the `find?` form evaluates to. -/
theorem C3_get_device_data_first_match_witness :
    (∀ r ∈ dup_name_inventory, (r.lookup "Name").isSome = true) ∧
    get_device_data dup_name_inventory "Router1" =
      .ok (dup_name_inventory.find? (fun r => r.lookup "Name" == some "Router1")) :=
  ⟨by decide, C3_get_device_data_first_match dup_name_inventory "Router1" (by decide)⟩

/-- C9: when a record lacking the Name key occurs before any record whose
Name equals the target, `get_device_data` does not return an absence value:
it fails with `KeyError` on `"Name"` (the subscript lookup is not total). -/
theorem C9_missing_name_key_error (pre rest : List Record) (bad : Record)
    (target : String)
    (hbad : bad.lookup "Name" = none)
    (hpre : ∀ r ∈ pre, r.lookup "Name" ≠ some target) :
    get_device_data (pre ++ bad :: rest) target = .error (.keyError "Name") := by
  induction pre with
  | nil => simp [get_device_data, hbad]
  | cons r pre ih =>
    cases hr : r.lookup "Name" with
    | none => simp [get_device_data, hr]
    | some n =>
      have hne : n ≠ target := by
        intro he
        exact hpre r (List.mem_cons_self r pre) (by rw [hr, he])
      have ih2 := ih (fun s hs => hpre s (List.mem_cons_of_mem r hs))
      simpa [get_device_data, hr, hne] using ih2

/-- C9 witness: a record without a Name key sitting before the matching
record makes the finder raise `KeyError` instead of finding Switch1. -/
theorem C9_missing_name_key_error_witness :
    ([("Management IP", "10.0.0.9")] : Record).lookup "Name" = none ∧
    get_device_data
      [[("Name", "Router1"), ("Description", "first")],
       [("Management IP", "10.0.0.9")],
       [("Name", "Switch1"), ("Description", "third")]] "Switch1" =
      .error (.keyError "Name") :=
  ⟨by decide,
   C9_missing_name_key_error
     [[("Name", "Router1"), ("Description", "first")]]
     [[("Name", "Switch1"), ("Description", "third")]]
     [("Management IP", "10.0.0.9")] "Switch1" (by decide) (by decide)⟩

/-- C6: for a record sequence loaded from a well-formed file (header plus
five-cell rows) and a new record with exactly the five keys, running
`add_device`, then `save_inventory`, then `read_inventory` on the same path
raises nothing and yields exactly the original records followed by one new
record; the new record agrees with the appended one on every one of the five
fields (its keys merely normalised to the persisted column order). -/
theorem C6_add_save_read_roundtrip (rows : List (List String)) (d : Record)
    (hrows : ∀ row ∈ rows, row.length = 5)
    (hd : has_exact_fieldnames d = true) :
    (save_inventory (add_device (read_inventory (fieldnames :: rows)) d)).2 = none ∧
    read_inventory
        (save_inventory (add_device (read_inventory (fieldnames :: rows)) d)).1 =
      read_inventory (fieldnames :: rows) ++ [canon d] ∧
    ∀ k ∈ fieldnames, (canon d).lookup k = d.lookup k := by
  have hd2 := hd
  simp only [has_exact_fieldnames, Bool.and_eq_true] at hd2
  set inv := read_inventory (fieldnames :: rows) with hinv
  have hmem : ∀ r ∈ add_device inv d,
      (r.map Prod.fst).all (fun k => fieldnames.contains k) = true := by
    intro r hr
    rcases List.mem_append.mp hr with hr | hr
    · obtain ⟨row, hrow, rfl⟩ := List.mem_map.mp hr
      have h5 := hrows row hrow
      match row, h5 with
      | [a, b, c, d, e], _ => rfl
    · have : r = d := by simpa using hr
      subst this
      exact hd2.2
  have hw := writeRows_ok (add_device inv d) hmem
  refine ⟨?_, ?_, ?_⟩
  · simp [save_inventory, hw]
  · have hfile : (save_inventory (add_device inv d)).1 =
        fieldnames :: (add_device inv d).map row_of := by
      simp [save_inventory, hw]
    rw [hfile]
    show ((add_device inv d).map row_of).map (fun row => fieldnames.zip row) =
      inv ++ [canon d]
    rw [List.map_map]
    have hcanon : ∀ r ∈ add_device inv d,
        ((fun row => fieldnames.zip row) ∘ row_of) r = canon r :=
      fun r _ => zip_row_of r
    rw [List.map_congr_left hcanon]
    have : inv.map canon = inv := by
      rw [hinv]
      show (rows.map (fun row => fieldnames.zip row)).map canon = _
      rw [List.map_map]
      refine List.map_congr_left ?_
      intro row hrow
      exact canon_zip row (hrows row hrow)
    simp [add_device, this]
  · intro k hk
    rw [lookup_canon d k hk]
    obtain ⟨v, hv⟩ :=
      Option.isSome_iff_exists.mp (List.all_eq_true.mp hd2.1 k hk)
    rw [hv]
    rfl

/-- C6 witness: the spec's own example — a one-row file holding Router1 and
an appended Switch1 record (keys scrambled) round-trips to Router1 then
Switch1 with all five fields intact. -/
theorem C6_add_save_read_roundtrip_witness :
    (∀ row ∈ [["Router1", "10.0.0.1", "admin", "pass123", "Core router"]],
        row.length = 5) ∧
    has_exact_fieldnames scrambled_record = true ∧
    ((save_inventory (add_device (read_inventory
        (fieldnames :: [["Router1", "10.0.0.1", "admin", "pass123", "Core router"]]))
        scrambled_record)).2 = none ∧
     read_inventory
        (save_inventory (add_device (read_inventory
          (fieldnames :: [["Router1", "10.0.0.1", "admin", "pass123", "Core router"]]))
          scrambled_record)).1 =
       read_inventory
          (fieldnames :: [["Router1", "10.0.0.1", "admin", "pass123", "Core router"]])
         ++ [canon scrambled_record] ∧
     ∀ k ∈ fieldnames, (canon scrambled_record).lookup k = scrambled_record.lookup k) :=
  ⟨by decide, by decide,
   C6_add_save_read_roundtrip
     [["Router1", "10.0.0.1", "admin", "pass123", "Core router"]]
     scrambled_record (by decide) (by decide)⟩

/-- C7 counterexample: an `add` invocation omitting four of the required
flags, run when the backing file is unreadable, does NOT fail with a usage
error: `read_inventory("inventory.csv")` (line 137) runs before
`parser.parse_args()` (line 143), so the run aborts with an unhandled
file-access error (exit code 1) and argparse never reports the missing
flags.  The usage error is therefore not issued "before any other logic
runs". -/
theorem C7_counterexample :
    (main_run none (.addCmd (some "Switch1") none none none none)).usageError
      = false ∧
    (main_run none (.addCmd (some "Switch1") none none none none)).exitCode
      = 1 :=
  ⟨rfl, rfl⟩

/-- C7 amended: provided the backing file is readable, every `add`
invocation omitting at least one of the five required flags fails with a
usage error printed to standard error and exit code 2, the backing file is
left exactly as it was (no mutation is attempted), and nothing is printed
to standard output.  (The inventory load still runs before argument
parsing, which is why readability of the backing file is required.) -/
theorem C7_missing_flag_usage_error (f : List (List String))
    (name ip user password desc : Option String)
    (h : name = none ∨ ip = none ∨ user = none ∨ password = none ∨ desc = none) :
    (main_run (some f) (.addCmd name ip user password desc)).usageError = true ∧
    (main_run (some f) (.addCmd name ip user password desc)).exitCode = 2 ∧
    (main_run (some f) (.addCmd name ip user password desc)).file = some f ∧
    (main_run (some f) (.addCmd name ip user password desc)).printedInventory
      = none := by
  cases name <;> cases ip <;> cases user <;> cases password <;> cases desc <;>
    simp_all [main_run]

/-- C7 amended witness: with an empty (readable) backing file, `add` with
only `--name` provided yields a usage error, exit code 2 and an untouched
file. -/
theorem C7_missing_flag_usage_error_witness :
    (main_run (some []) (.addCmd (some "Switch1") none none none none)).usageError
      = true ∧
    (main_run (some []) (.addCmd (some "Switch1") none none none none)).exitCode
      = 2 ∧
    (main_run (some []) (.addCmd (some "Switch1") none none none none)).file
      = some [] ∧
    (main_run (some []) (.addCmd (some "Switch1") none none none none)).printedInventory
      = none :=
  C7_missing_flag_usage_error [] (some "Switch1") none none none none
    (Or.inr (Or.inl rfl))

/-- C8: a run with no arguments on a readable backing file loads the
inventory, prints exactly the loaded in-memory record sequence to standard
output, exits with code 0, and performs no write — the backing file's
contents are unchanged (and no confirmation message is produced). -/
theorem C8_no_args_prints_and_preserves (f : List (List String)) :
    (main_run (some f) .noArgs).exitCode = 0 ∧
    (main_run (some f) .noArgs).file = some f ∧
    (main_run (some f) .noArgs).printedInventory = some (read_inventory f) ∧
    (main_run (some f) .noArgs).message = none :=
  ⟨rfl, rfl, rfl, rfl⟩

end InventoryTool
